import Mathlib

/-
Verification development for the risk evaluation and forecasting subsystem
of the repository (risk_eval/risk_evaluator.py).

Shallow embedding notes.
The four Python entry points are embedded as total Lean functions over
explicit environment records.  An environment captures everything the
Python code obtains from the outside world inside its try blocks:
the CSV load (which may raise, modelled as an Option String error),
the per-country slice of the historical table, and the outcome of each
Holt model fit (which may raise, or may return a forecast series).
Scalar values flowing out of pandas/statsmodels are embedded as PVal:
either a rational number or NaN, with the IEEE comparison behaviour the
Python comparisons rely on (every comparison involving NaN is false,
arithmetic with NaN yields NaN).
Python dicts keyed by country are embedded as association lists with
overwrite-on-insert semantics (dictSet / dictGet below).
-/

namespace RiskEval

/-- A pandas scalar: a rational number or NaN.  Comparisons involving NaN
are false, arithmetic involving NaN yields NaN, matching the float
semantics the Python source relies on. -/
inductive PVal where
  | nan : PVal
  | num : ℚ → PVal
deriving DecidableEq

def PVal.isNaN : PVal → Bool
  | .nan => true
  | .num _ => false

def PVal.le : PVal → PVal → Bool
  | .num a, .num b => decide (a ≤ b)
  | _, _ => false

def PVal.gt0 : PVal → Bool
  | .num a => decide (0 < a)
  | .nan => false

def PVal.add : PVal → PVal → PVal
  | .num a, .num b => .num (a + b)
  | _, _ => .nan

def PVal.sub : PVal → PVal → PVal
  | .num a, .num b => .num (a - b)
  | _, _ => .nan

/-- Elementwise pandas fillna: replace a NaN cell by the given value. -/
def PVal.fillna (v : PVal) : PVal → PVal
  | .nan => v
  | .num a => .num a

/-- Python dict write: overwrite the binding for the key. -/
def dictSet {α : Type} (m : List (String × α)) (k : String) (v : α) :
    List (String × α) :=
  (k, v) :: m.filter (fun p => p.1 ≠ k)

/-- Python dict read. -/
def dictGet {α : Type} (k : String) : List (String × α) → Option α
  | [] => none
  | p :: rest => if p.1 = k then some p.2 else dictGet k rest

/-! ## Climate risk evaluator (evaluate_climate_risk) -/

/-- What the climate data pipeline yields for one country, before the
classification step: the country is absent from the filtered table, or its
value series is empty / all null, or the Holt fit raises, or the fit
succeeds with a last historical value and a forecast series. -/
inductive ClimateCountryData where
  | absent
  | insufficient
  | fitError (msg : String)
  | forecast (histLast : PVal) (vals : List PVal)
deriving DecidableEq

/-- Environment of evaluate_climate_risk: loadErr models an exception
raised while loading or preparing the CSV (caught by the outer handler);
data gives each country its pipeline outcome. -/
structure ClimateEnv where
  loadErr : Option String
  data : String → ClimateCountryData

/-- One entry of country_risks: status, risk_level, and (when forecasted)
the final forecast value.  The source additionally rounds the stored
value to 2 decimals for display; the classification never uses the
rounded value. -/
structure ClimateEntry where
  status : String
  risk_level : String
  forecast_temp_rise : Option PVal
deriving DecidableEq

/-- The count_risk tally of the source. -/
structure Counts where
  high : ℕ
  med : ℕ
  low : ℕ
deriving DecidableEq

/-- Result dict of evaluate_climate_risk.  country_risks is none exactly
in the degraded error shape, which carries only overall_risk and error. -/
structure ClimateResult where
  overall_risk : String
  country_risks : Option (List (String × ClimateEntry))
  error : Option String
deriving DecidableEq

/-- Per-country body of the loop in evaluate_climate_risk: the produced
entry together with the count_risk increments (lines 32-83 of the
source).  An empty forecast series would make forecast.values[-1] raise,
which the per-country handler catches. -/
def climateEntryOf : ClimateCountryData → ClimateEntry × Counts
  | .absent => (⟨"No data available", "Unknown", none⟩, ⟨0, 0, 0⟩)
  | .insufficient => (⟨"Insufficient data", "Unknown", none⟩, ⟨0, 0, 0⟩)
  | .fitError msg =>
      (⟨"Error in forecasting: " ++ msg, "Unknown", none⟩, ⟨0, 0, 0⟩)
  | .forecast _ vals =>
    match vals.getLast? with
    | none =>
        (⟨"Error in forecasting: index -1 is out of bounds", "Unknown", none⟩,
         ⟨0, 0, 0⟩)
    | some v =>
      if v.le (.num (3/2)) then
        (⟨"Forecasted", "Low", some v⟩, ⟨0, 0, 1⟩)
      else if ((PVal.num (8/5)).le v && v.le (.num (29/10))) then
        (⟨"Forecasted", "Medium", some v⟩, ⟨0, 1, 0⟩)
      else
        (⟨"Forecasted", "High", some v⟩, ⟨1, 0, 0⟩)

def climateStep (env : ClimateEnv)
    (acc : List (String × ClimateEntry) × Counts) (c : String) :
    List (String × ClimateEntry) × Counts :=
  let r := climateEntryOf (env.data c)
  (dictSet acc.1 c r.1,
   ⟨acc.2.high + r.2.high, acc.2.med + r.2.med, acc.2.low + r.2.low⟩)

def evaluate_climate_risk (env : ClimateEnv) (countries : List String) :
    ClimateResult :=
  match env.loadErr with
  | some msg => ⟨"Unknown", none, some msg⟩
  | none =>
    let st := countries.foldl (climateStep env) ([], ⟨0, 0, 0⟩)
    let overall :=
      if st.2.high > 0 then "High"
      else if st.2.med > st.2.low then "Medium"
      else "Low"
    ⟨overall, some st.1, none⟩

/-! ## Carbon price risk evaluator (evaluate_carbon_price_risk) -/

/-- Outcome of one Holt fit in the carbon measure loop: the fit raises,
or yields the last historical value of the measure series (none when that
series is empty) and the 4-step forecast series. -/
inductive CarbonFitOutcome where
  | err (msg : String)
  | ok (histLast : Option PVal) (pred : List PVal)
deriving DecidableEq

/-- Environment of evaluate_carbon_price_risk.  hasRows c says whether
the country has any rows before the sector filter; sectorSources gives,
per sector and country, the distinct SOURCE values after the sector
filter (allSources when the data has no SECTOR column); hasMeasure says
whether a measure column exists; fit gives the Holt outcome per
(country, source, measure). -/
structure CarbonEnv where
  loadErr : Option String
  hasRows : String → Bool
  hasSectorCol : Bool
  sectorSources : String → String → List String
  allSources : String → List String
  hasMeasure : String → Bool
  fit : String → String → String → CarbonFitOutcome

/-- The distinct sources iterated for one country, after the conditional
sector filter (source lines 122-123 and 146). -/
def sourcesOf (env : CarbonEnv) (sector c : String) : List String :=
  if env.hasSectorCol then env.sectorSources sector c else env.allSources c

/-- One entry of the measures dict: the per-measure except clause stores
error and status only (no change key); success stores initial, forecast
and change. -/
inductive MeasureEntry where
  | fitFailed (msg : String)
  | fitted (initial forecast change : PVal)
deriving DecidableEq

/-- The .get(change, 0) read used when summing ecr_change. -/
def MeasureEntry.getChange : MeasureEntry → PVal
  | .fitted _ _ change => change
  | .fitFailed _ => .num 0

/-- Body of the per-measure try block (source lines 155-180): if the
forecast is entirely NaN it is filled with the last historical value
(raising, hence failing, when the measure series is empty); then
initial, final and change are computed with empty-series guards. -/
def processMeasure : CarbonFitOutcome → MeasureEntry
  | .err msg => .fitFailed msg
  | .ok histLast pred =>
    let pred2 :=
      if pred.all PVal.isNaN then
        match histLast with
        | none => none
        | some h => some (pred.map (PVal.fillna h))
      else some pred
    match pred2 with
    | none => .fitFailed "single positional indexer is out-of-bounds"
    | some p =>
      let initial := histLast.getD (.num 0)
      let final := (p.getLast?).getD (.num 0)
      .fitted initial final (final.sub initial)

/-- The measure loop iterates these four columns in this order. -/
def measureNames : List String := ["FUETAX", "CARBTAX", "MPERPRI", "SUBSID"]

/-- The ecr_change sum iterates these three columns in this order. -/
def ecrMeasures : List String := ["CARBTAX", "FUETAX", "MPERPRI"]

/-- The measures dict built for one (country, source) group. -/
def sourceMeasures (env : CarbonEnv) (c s : String) :
    List (String × MeasureEntry) :=
  measureNames.filterMap fun m =>
    if env.hasMeasure m then some (m, processMeasure (env.fit c s m))
    else none

/-- ecr_change: sum of .get(change, 0) over the present entries of
CARBTAX, FUETAX, MPERPRI (source lines 182-186). -/
def ecrChange (ms : List (String × MeasureEntry)) : PVal :=
  ecrMeasures.foldl
    (fun acc m =>
      match dictGet m ms with
      | some e => acc.add e.getChange
      | none => acc)
    (.num 0)

/-- The source_forecast dict for one (country, source) group. -/
structure SourceForecast where
  source : String
  measures : List (String × MeasureEntry)
  ecr_change : PVal
  risk_level : String
deriving DecidableEq

def carbonSourceForecast (env : CarbonEnv) (c s : String) : SourceForecast :=
  let ms := sourceMeasures env c s
  let ecr := ecrChange ms
  ⟨s, ms, ecr, if ecr.gt0 then "High" else "Low"⟩

/-- One entry of country_details: either the no-data stub or the
source_forecast dict of the last iterated source. -/
inductive CarbonCountryEntry where
  | noData (status risk_level : String)
  | sourceDetail (sf : SourceForecast)
deriving DecidableEq

def CarbonCountryEntry.riskLevel : CarbonCountryEntry → String
  | .noData _ r => r
  | .sourceDetail sf => sf.risk_level

/-- Inner loop body over sources: writes the country key (last write
wins) and bumps high_risk_count for each High source. -/
def carbonInnerStep (env : CarbonEnv) (c : String)
    (acc : List (String × CarbonCountryEntry) × ℕ) (s : String) :
    List (String × CarbonCountryEntry) × ℕ :=
  let sf := carbonSourceForecast env c s
  (dictSet acc.1 c (.sourceDetail sf),
   acc.2 + if sf.ecr_change.gt0 then 1 else 0)

/-- Outer loop body over countries (source lines 128-197). -/
def carbonCountryStep (env : CarbonEnv) (sector : String)
    (acc : List (String × CarbonCountryEntry) × ℕ) (c : String) :
    List (String × CarbonCountryEntry) × ℕ :=
  let srcs := sourcesOf env sector c
  if srcs.isEmpty then
    (dictSet acc.1 c (.noData "No data available" "Unknown"), acc.2)
  else
    srcs.foldl (carbonInnerStep env c) acc

/-- Result dict of evaluate_carbon_price_risk.  details is the message of
the early Unknown return for an empty country filter; error is the outer
exception shape. -/
structure CarbonResult where
  overall_risk : String
  country_details : Option (List (String × CarbonCountryEntry))
  details : Option String
  error : Option String
deriving DecidableEq

/-- evaluate_carbon_price_risk.  The source gives sector the default
value Industry; callers here pass it explicitly.  Note the empty check
(source line 115) precedes the sector filter (lines 122-123), so it only
sees the country filter. -/
def evaluate_carbon_price_risk (env : CarbonEnv) (countries : List String)
    (sector : String) : CarbonResult :=
  match env.loadErr with
  | some msg => ⟨"Unknown", none, none, some msg⟩
  | none =>
    if countries.all (fun c => !env.hasRows c) then
      ⟨"Unknown", none,
       some "No carbon pricing data available for specified countries", none⟩
    else
      let st := countries.foldl (carbonCountryStep env sector) ([], 0)
      let overall :=
        if ((st.2 : ℚ) > (countries.length : ℚ) / 2) then "High" else "Low"
      ⟨overall, some st.1, none, none⟩

/-! ## Technology risk evaluator (evaluate_technology_risk) -/

/-- What the technology data pipeline yields for one country. -/
inductive TechCountryData where
  | absent
  | insufficient
  | fitError (msg : String)
  | forecast (histLast : PVal) (vals : List PVal)
deriving DecidableEq

structure TechEnv where
  loadErr : Option String
  data : String → TechCountryData

structure TechEntry where
  status : String
  risk_level : String
  forecast_trend : Option String
  current_value : Option PVal
  forecast_value : Option PVal
deriving DecidableEq

structure TechResult where
  overall_risk : String
  country_details : Option (List (String × TechEntry))
  error : Option String
deriving DecidableEq

/-- Per-country body of evaluate_technology_risk (source lines 233-282):
forecast.values[-1] is the head of the reversed series and
forecast.values[-3] its third element; a series shorter than 3 makes the
indexing raise, which the per-country handler catches.  The comparison
values[-1] <= values[-3] selects High.  The classification on the two
indexed values (none models the IndexError path caught by the
per-country handler): -/
def techForecastEntry (histLast : PVal) (o1 o3 : Option PVal) :
    TechEntry × ℕ :=
  match o1, o3 with
  | some last, some third =>
    if last.le third then
      (⟨"Forecasted", "High", some "Decreasing", some histLast, some last⟩, 1)
    else
      (⟨"Forecasted", "Low", some "Increasing", some histLast, some last⟩, 0)
  | _, _ =>
      (⟨"Error in forecasting: index out of bounds", "Unknown",
        none, none, none⟩, 0)

def techEntryOf : TechCountryData → TechEntry × ℕ
  | .absent => (⟨"No data available", "Unknown", none, none, none⟩, 0)
  | .insufficient => (⟨"Insufficient data", "Unknown", none, none, none⟩, 0)
  | .fitError msg =>
      (⟨"Error in forecasting: " ++ msg, "Unknown", none, none, none⟩, 0)
  | .forecast histLast vals =>
      techForecastEntry histLast (vals.reverse)[0]? (vals.reverse)[2]?

def techStep (env : TechEnv) (acc : List (String × TechEntry) × ℕ)
    (c : String) : List (String × TechEntry) × ℕ :=
  let r := techEntryOf (env.data c)
  (dictSet acc.1 c r.1, acc.2 + r.2)

def evaluate_technology_risk (env : TechEnv) (countries : List String) :
    TechResult :=
  match env.loadErr with
  | some msg => ⟨"Unknown", none, some msg⟩
  | none =>
    let st := countries.foldl (techStep env) ([], 0)
    let overall :=
      if ((st.2 : ℚ) > (countries.length : ℚ) / 2) then "High" else "Low"
    ⟨overall, some st.1, none⟩

/-! ## Comprehensive assessment (run_comprehensive_risk_assessment) -/

/-- Environment of run_comprehensive_risk_assessment: the three
sub-environments, the timestamp, and persistErr modelling an exception
raised inside its try block (timestamping or writing the JSON file);
such an exception discards the computed results, so it is checked before
they are assembled. -/
structure AssessEnv where
  climate : ClimateEnv
  carbon : CarbonEnv
  tech : TechEnv
  now : String
  persistErr : Option String

structure AssessmentBundle where
  error : Option String
  climate_risk : ClimateResult
  carbon_price_risk : CarbonResult
  technology_risk : TechResult
  timestamp : Option String
  evaluated_countries : Option (List String)
deriving DecidableEq

def unknownClimate : ClimateResult := ⟨"Unknown", none, none⟩

def unknownCarbon : CarbonResult := ⟨"Unknown", none, none, none⟩

def unknownTech : TechResult := ⟨"Unknown", none, none⟩

/-- The short-circuit bundle returned for an empty country list. -/
def emptyCountriesBundle : AssessmentBundle :=
  ⟨some "No countries specified for risk assessment",
   unknownClimate, unknownCarbon, unknownTech, none, none⟩

def run_comprehensive_risk_assessment (env : AssessEnv)
    (countries : List String) : AssessmentBundle :=
  if countries.isEmpty then emptyCountriesBundle
  else
    match env.persistErr with
    | some msg =>
        ⟨some msg, unknownClimate, unknownCarbon, unknownTech, none, none⟩
    | none =>
        ⟨none, evaluate_climate_risk env.climate countries,
         evaluate_carbon_price_risk env.carbon countries "Industry",
         evaluate_technology_risk env.tech countries,
         some env.now, some countries⟩

/-! ## Dictionary and fold lemmas -/

theorem PVal.add_zero (v : PVal) : v.add (.num 0) = v := by
  cases v with
  | nan => rfl
  | num q => simp [PVal.add]

theorem dictGet_dictSet_self {α : Type} (m : List (String × α)) (k : String)
    (v : α) : dictGet k (dictSet m k v) = some v := by
  simp [dictGet, dictSet]

theorem dictGet_filter_ne {α : Type} (m : List (String × α)) (k k' : String)
    (h : k' ≠ k) :
    dictGet k' (m.filter (fun p => p.1 ≠ k)) = dictGet k' m := by
  induction m with
  | nil => rfl
  | cons p rest ih =>
    rw [List.filter_cons]
    by_cases hp : p.1 = k
    · rw [if_neg (by simp [hp])]
      have h2 : ¬ p.1 = k' := fun hc => h (hc ▸ hp)
      rw [ih]
      simp only [dictGet]
      rw [if_neg h2]
    · rw [if_pos (by simp [hp])]
      simp only [dictGet]
      by_cases hpk : p.1 = k'
      · rw [if_pos hpk, if_pos hpk]
      · rw [if_neg hpk, if_neg hpk, ih]

theorem dictGet_dictSet_ne {α : Type} (m : List (String × α)) (k k' : String)
    (v : α) (h : k' ≠ k) : dictGet k' (dictSet m k v) = dictGet k' m := by
  show (if k = k' then some v else
    dictGet k' (m.filter (fun p => p.1 ≠ k))) = dictGet k' m
  rw [if_neg (fun hc => h hc.symm)]
  exact dictGet_filter_ne m k k' h

theorem dictSet_mem {α : Type} {P : String × α → Prop}
    {m : List (String × α)} {k : String} {v : α}
    (hm : ∀ p ∈ m, P p) (hv : P (k, v)) :
    ∀ p ∈ dictSet m k v, P p := by
  intro p hp
  rcases List.mem_cons.mp hp with h | h
  · exact h ▸ hv
  · exact hm p (List.mem_of_mem_filter h)

/-- Invariant preservation along a left fold. -/
theorem foldl_inv {α σ : Type} (f : σ → α → σ) (P : σ → Prop)
    (hf : ∀ s a, P s → P (f s a)) :
    ∀ (l : List α) (s : σ), P s → P (l.foldl f s) := by
  intro l
  induction l with
  | nil => intro s hs; exact hs
  | cons a l ih => intro s hs; exact ih (f s a) (hf s a hs)

/-- Lookup through a fold whose step writes, for each processed key, an
entry depending only on that key. -/
theorem fold_dictGet {β γ : Type}
    (step : List (String × β) × γ → String → List (String × β) × γ)
    (entryOf : String → β)
    (hstep : ∀ acc c k, dictGet k (step acc c).1 =
      if c = k then some (entryOf c) else dictGet k acc.1) :
    ∀ (cs : List String) (acc : List (String × β) × γ) (k : String),
      dictGet k (cs.foldl step acc).1 =
        if k ∈ cs then some (entryOf k) else dictGet k acc.1 := by
  intro cs
  induction cs with
  | nil => intro acc k; simp
  | cons c cs ih =>
    intro acc k
    rw [List.foldl_cons, ih (step acc c) k, hstep acc c k]
    by_cases hk : k ∈ cs
    · simp [hk]
    · by_cases hck : c = k
      · subst hck; simp [hk]
      · have hkc : ¬ k = c := fun hc => hck hc.symm
        simp [hk, hck, hkc]

/-! ## Spec-side classification and counting -/

/-- The climate threshold chain of source lines 63-71 as a label. -/
def climateLabel (v : PVal) : String :=
  if v.le (.num (3/2)) then "Low"
  else if ((PVal.num (8/5)).le v && v.le (.num (29/10))) then "Medium"
  else "High"

/-- The classification label a country contributes to the climate tally,
none when it is not classified. -/
def climLabelOf : ClimateCountryData → Option String
  | .forecast _ vals => (vals.getLast?).map climateLabel
  | _ => none

/-- Number of occurrences of countries classified at a given level. -/
def countLevel (env : ClimateEnv) (countries : List String) (lvl : String) :
    ℕ :=
  (countries.filter (fun c => climLabelOf (env.data c) = some lvl)).length

theorem climateEntryOf_counts (d : ClimateCountryData) :
    (climateEntryOf d).2 =
      ⟨if climLabelOf d = some "High" then 1 else 0,
       if climLabelOf d = some "Medium" then 1 else 0,
       if climLabelOf d = some "Low" then 1 else 0⟩ := by
  cases d with
  | absent => simp [climateEntryOf, climLabelOf]
  | insufficient => simp [climateEntryOf, climLabelOf]
  | fitError msg => simp [climateEntryOf, climLabelOf]
  | forecast h vals =>
    cases hl : vals.getLast? with
    | none => simp [climateEntryOf, climLabelOf, hl]
    | some v =>
      simp only [climateEntryOf, climLabelOf, hl, Option.map_some', climateLabel]
      split
      · simp
      · split
        · simp
        · simp

theorem climateFold_counts (env : ClimateEnv) :
    ∀ (cs : List String) (acc : List (String × ClimateEntry) × Counts),
      (cs.foldl (climateStep env) acc).2 =
        ⟨acc.2.high + countLevel env cs "High",
         acc.2.med + countLevel env cs "Medium",
         acc.2.low + countLevel env cs "Low"⟩ := by
  intro cs
  induction cs with
  | nil => intro acc; simp [countLevel]
  | cons c cs ih =>
    intro acc
    rw [List.foldl_cons, ih]
    have hcount : ∀ lvl, countLevel env (c :: cs) lvl =
        (if climLabelOf (env.data c) = some lvl then 1 else 0) +
          countLevel env cs lvl := by
      intro lvl
      simp only [countLevel, List.filter_cons]
      by_cases hc : climLabelOf (env.data c) = some lvl
      · rw [if_pos (by simp [hc]), if_pos hc, List.length_cons]
        omega
      · rw [if_neg (by simp [hc]), if_neg hc]
        omega
    rw [hcount "High", hcount "Medium", hcount "Low"]
    simp only [climateStep, climateEntryOf_counts]
    simp only [Counts.mk.injEq]
    refine ⟨by omega, by omega, by omega⟩

theorem climateStep_dictGet (env : ClimateEnv)
    (acc : List (String × ClimateEntry) × Counts) (c k : String) :
    dictGet k (climateStep env acc c).1 =
      if c = k then some (climateEntryOf (env.data c)).1
      else dictGet k acc.1 := by
  by_cases h : c = k
  · subst h
    rw [if_pos rfl]
    exact dictGet_dictSet_self acc.1 c (climateEntryOf (env.data c)).1
  · rw [if_neg h]
    exact dictGet_dictSet_ne acc.1 c k _ (fun hc => h hc.symm)

theorem climateFold_dictGet (env : ClimateEnv) (cs : List String)
    (acc : List (String × ClimateEntry) × Counts) (k : String) :
    dictGet k (cs.foldl (climateStep env) acc).1 =
      if k ∈ cs then some (climateEntryOf (env.data k)).1
      else dictGet k acc.1 :=
  fold_dictGet (climateStep env) (fun c => (climateEntryOf (env.data c)).1)
    (fun acc c k => climateStep_dictGet env acc c k) cs acc k

/-! ## Carbon evaluator: fold lemmas -/

/-- Whether a (country, source) group is labeled High. -/
def sourceHigh (env : CarbonEnv) (c s : String) : Bool :=
  (carbonSourceForecast env c s).ecr_change.gt0

/-- The high_risk_count accumulated by the source: the number of
(country, source) pairs labeled High, countries counted per occurrence. -/
def carbonHighCount (env : CarbonEnv) (sector : String)
    (countries : List String) : ℕ :=
  (countries.map
    (fun c => ((sourcesOf env sector c).filter (sourceHigh env c)).length)).sum

/-- The country_details entry a country ends up with: the no-data stub
when it has no sources, else the detail of the last iterated source. -/
def carbonCountryEntryOf (env : CarbonEnv) (sector c : String) :
    CarbonCountryEntry :=
  match (sourcesOf env sector c).getLast? with
  | none => .noData "No data available" "Unknown"
  | some s => .sourceDetail (carbonSourceForecast env c s)

theorem carbonInner_count (env : CarbonEnv) (c : String) :
    ∀ (srcs : List String) (acc : List (String × CarbonCountryEntry) × ℕ),
      (srcs.foldl (carbonInnerStep env c) acc).2 =
        acc.2 + (srcs.filter (sourceHigh env c)).length := by
  intro srcs
  induction srcs with
  | nil => intro acc; simp
  | cons s srcs ih =>
    intro acc
    rw [List.foldl_cons, ih, List.filter_cons]
    have hstep : (carbonInnerStep env c acc s).2 =
        acc.2 + if sourceHigh env c s = true then 1 else 0 := rfl
    rw [hstep]
    cases hs : sourceHigh env c s <;> simp [List.length_cons] <;> omega

theorem carbonInner_dictGet (env : CarbonEnv) (c : String) :
    ∀ (srcs : List String) (s0 : String)
      (acc : List (String × CarbonCountryEntry) × ℕ) (k : String),
      srcs.getLast? = some s0 →
      dictGet k (srcs.foldl (carbonInnerStep env c) acc).1 =
        if c = k then
          some (.sourceDetail (carbonSourceForecast env c s0))
        else dictGet k acc.1 := by
  intro srcs
  induction srcs with
  | nil => intro s0 acc k h; exact absurd h (by simp)
  | cons s srcs ih =>
    intro s0 acc k h
    cases srcs with
    | nil =>
      have hs : s0 = s := by
        have : some s = some s0 := h
        exact (Option.some.inj this).symm
      subst hs
      show dictGet k (carbonInnerStep env c acc s0).1 = _
      by_cases hck : c = k
      · subst hck
        rw [if_pos rfl]
        exact dictGet_dictSet_self _ _ _
      · rw [if_neg hck]
        exact dictGet_dictSet_ne _ _ _ _ (fun hc => hck hc.symm)
    | cons s1 srcs1 =>
      have hl : (s1 :: srcs1).getLast? = some s0 := h
      rw [List.foldl_cons, ih s0 (carbonInnerStep env c acc s) k hl]
      by_cases hck : c = k
      · rw [if_pos hck, if_pos hck]
      · rw [if_neg hck, if_neg hck]
        exact dictGet_dictSet_ne _ _ _ _ (fun hc => hck hc.symm)

theorem carbonStep_count (env : CarbonEnv) (sector : String)
    (acc : List (String × CarbonCountryEntry) × ℕ) (c : String) :
    (carbonCountryStep env sector acc c).2 =
      acc.2 + ((sourcesOf env sector c).filter (sourceHigh env c)).length := by
  simp only [carbonCountryStep]
  cases hsrc : sourcesOf env sector c with
  | nil => simp
  | cons s rest =>
    simp only [List.isEmpty_cons, Bool.false_eq_true, if_false]
    rw [← hsrc]
    rw [hsrc]
    exact carbonInner_count env c (s :: rest) acc

theorem carbonStep_dictGet (env : CarbonEnv) (sector : String)
    (acc : List (String × CarbonCountryEntry) × ℕ) (c k : String) :
    dictGet k (carbonCountryStep env sector acc c).1 =
      if c = k then some (carbonCountryEntryOf env sector c)
      else dictGet k acc.1 := by
  simp only [carbonCountryStep, carbonCountryEntryOf]
  cases hsrc : sourcesOf env sector c with
  | nil =>
    simp only [List.isEmpty_nil, if_true, List.getLast?_nil]
    by_cases hck : c = k
    · subst hck
      rw [if_pos rfl]
      exact dictGet_dictSet_self _ _ _
    · rw [if_neg hck]
      exact dictGet_dictSet_ne _ _ _ _ (fun hc => hck hc.symm)
  | cons s rest =>
    simp only [List.isEmpty_cons, Bool.false_eq_true, if_false]
    have hne : s :: rest ≠ [] := by simp
    obtain ⟨s0, hl⟩ :=
      Option.isSome_iff_exists.mp (List.getLast?_isSome.mpr hne)
    rw [carbonInner_dictGet env c (s :: rest) s0 acc k hl, hl]

theorem carbonFold_count (env : CarbonEnv) (sector : String) :
    ∀ (countries : List String)
      (acc : List (String × CarbonCountryEntry) × ℕ),
      (countries.foldl (carbonCountryStep env sector) acc).2 =
        acc.2 + carbonHighCount env sector countries := by
  intro countries
  induction countries with
  | nil => intro acc; simp [carbonHighCount]
  | cons c cs ih =>
    intro acc
    rw [List.foldl_cons, ih, carbonStep_count]
    simp only [carbonHighCount, List.map_cons, List.sum_cons]
    omega

theorem carbonFold_dictGet (env : CarbonEnv) (sector : String)
    (cs : List String) (acc : List (String × CarbonCountryEntry) × ℕ)
    (k : String) :
    dictGet k (cs.foldl (carbonCountryStep env sector) acc).1 =
      if k ∈ cs then some (carbonCountryEntryOf env sector k)
      else dictGet k acc.1 :=
  fold_dictGet (carbonCountryStep env sector)
    (carbonCountryEntryOf env sector)
    (fun acc c k => carbonStep_dictGet env sector acc c k) cs acc k

/-! ## Technology evaluator: fold lemmas -/

/-- The label the classification on the two indexed values yields. -/
def techForecastLabel (o1 o3 : Option PVal) : Option String :=
  match o1, o3 with
  | some last, some third => some (if last.le third then "High" else "Low")
  | _, _ => none

/-- The classification label a country contributes to the technology
tally, none when it is not classified. -/
def techLabelOf : TechCountryData → Option String
  | .forecast _ vals => techForecastLabel (vals.reverse)[0]? (vals.reverse)[2]?
  | _ => none

def techHighCount (env : TechEnv) (countries : List String) : ℕ :=
  (countries.filter (fun c => techLabelOf (env.data c) = some "High")).length

theorem techForecastEntry_count (h : PVal) (o1 o3 : Option PVal) :
    (techForecastEntry h o1 o3).2 =
      if techForecastLabel o1 o3 = some "High" then 1 else 0 := by
  cases o1 with
  | none => cases o3 <;> simp [techForecastEntry, techForecastLabel]
  | some a =>
    cases o3 with
    | none => simp [techForecastEntry, techForecastLabel]
    | some b =>
      cases hle : a.le b <;>
        simp [techForecastEntry, techForecastLabel, hle]

theorem techEntryOf_count (d : TechCountryData) :
    (techEntryOf d).2 = if techLabelOf d = some "High" then 1 else 0 := by
  cases d with
  | absent => simp [techEntryOf, techLabelOf]
  | insufficient => simp [techEntryOf, techLabelOf]
  | fitError msg => simp [techEntryOf, techLabelOf]
  | forecast h vals =>
    simp only [techEntryOf, techLabelOf]
    exact techForecastEntry_count h _ _

theorem techFold_count (env : TechEnv) :
    ∀ (cs : List String) (acc : List (String × TechEntry) × ℕ),
      (cs.foldl (techStep env) acc).2 = acc.2 + techHighCount env cs := by
  intro cs
  induction cs with
  | nil => intro acc; simp [techHighCount]
  | cons c cs ih =>
    intro acc
    rw [List.foldl_cons, ih]
    have hstep : (techStep env acc c).2 = acc.2 + (techEntryOf (env.data c)).2 :=
      rfl
    rw [hstep, techEntryOf_count]
    simp only [techHighCount, List.filter_cons]
    by_cases hc : techLabelOf (env.data c) = some "High" <;> simp [hc] <;> omega

theorem techStep_dictGet (env : TechEnv)
    (acc : List (String × TechEntry) × ℕ) (c k : String) :
    dictGet k (techStep env acc c).1 =
      if c = k then some (techEntryOf (env.data c)).1
      else dictGet k acc.1 := by
  by_cases h : c = k
  · subst h
    rw [if_pos rfl]
    exact dictGet_dictSet_self acc.1 c (techEntryOf (env.data c)).1
  · rw [if_neg h]
    exact dictGet_dictSet_ne acc.1 c k _ (fun hc => h hc.symm)

theorem techFold_dictGet (env : TechEnv) (cs : List String)
    (acc : List (String × TechEntry) × ℕ) (k : String) :
    dictGet k (cs.foldl (techStep env) acc).1 =
      if k ∈ cs then some (techEntryOf (env.data k)).1
      else dictGet k acc.1 :=
  fold_dictGet (techStep env) (fun c => (techEntryOf (env.data c)).1)
    (fun acc c k => techStep_dictGet env acc c k) cs acc k

/-! ## ecr_change as a closed formula over the fit outcomes -/

/-- The delta one measure contributes to ecr_change: the .get(change, 0)
of its entry when the measure column exists, else nothing (written 0). -/
def measureChange (env : CarbonEnv) (c s m : String) : PVal :=
  if env.hasMeasure m then (processMeasure (env.fit c s m)).getChange
  else .num 0

theorem ecrChange_eq (env : CarbonEnv) (c s : String) :
    ecrChange (sourceMeasures env c s) =
      (((PVal.num 0).add (measureChange env c s "CARBTAX")).add
        (measureChange env c s "FUETAX")).add
        (measureChange env c s "MPERPRI") := by
  cases h1 : env.hasMeasure "FUETAX" <;>
    cases h2 : env.hasMeasure "CARBTAX" <;>
      cases h3 : env.hasMeasure "MPERPRI" <;>
        cases h4 : env.hasMeasure "SUBSID" <;>
          simp [ecrChange, sourceMeasures, measureNames, ecrMeasures,
            measureChange, dictGet, h1, h2, h3, h4, PVal.add_zero]

theorem dictGet_sourceMeasures (env : CarbonEnv) (c s m : String)
    (hm : m ∈ measureNames) :
    dictGet m (sourceMeasures env c s) =
      if env.hasMeasure m then some (processMeasure (env.fit c s m))
      else none := by
  fin_cases hm <;>
    cases h1 : env.hasMeasure "FUETAX" <;>
      cases h2 : env.hasMeasure "CARBTAX" <;>
        cases h3 : env.hasMeasure "MPERPRI" <;>
          cases h4 : env.hasMeasure "SUBSID" <;>
            simp [sourceMeasures, measureNames, dictGet, h1, h2, h3, h4]

/-! ## Structural validity of every returned result (never raises) -/

def riskLabels3 : List String := ["High", "Medium", "Low"]

def riskLabels2 : List String := ["High", "Low"]

def entryLabels : List String := ["High", "Medium", "Low", "Unknown"]

def entryLabels2 : List String := ["High", "Low", "Unknown"]

/-- A structurally valid climate result: either the degraded outer-error
shape with overall Unknown, or a normal shape with a legal overall label
and a country map whose entries carry legal labels. -/
def ClimateResult.valid (r : ClimateResult) : Prop :=
  (∃ msg, r.error = some msg ∧ r.overall_risk = "Unknown" ∧
    r.country_risks = none) ∨
  (r.error = none ∧ r.overall_risk ∈ riskLabels3 ∧
    ∃ m, r.country_risks = some m ∧ ∀ p ∈ m, p.2.risk_level ∈ entryLabels)

/-- A structurally valid carbon result: outer-error shape, or the early
Unknown-with-details shape, or a normal shape. -/
def CarbonResult.valid (r : CarbonResult) : Prop :=
  (∃ msg, r.error = some msg ∧ r.overall_risk = "Unknown" ∧
    r.country_details = none) ∨
  (r.error = none ∧ (∃ msg, r.details = some msg) ∧
    r.overall_risk = "Unknown" ∧ r.country_details = none) ∨
  (r.error = none ∧ r.details = none ∧ r.overall_risk ∈ riskLabels2 ∧
    ∃ m, r.country_details = some m ∧
      ∀ p ∈ m, p.2.riskLevel ∈ entryLabels2)

def TechResult.valid (r : TechResult) : Prop :=
  (∃ msg, r.error = some msg ∧ r.overall_risk = "Unknown" ∧
    r.country_details = none) ∨
  (r.error = none ∧ r.overall_risk ∈ riskLabels2 ∧
    ∃ m, r.country_details = some m ∧
      ∀ p ∈ m, p.2.risk_level ∈ entryLabels2)

/-- A structurally valid bundle for a given input list: the degraded
shape with all three domains Unknown, or three valid domain results. -/
def AssessmentBundle.valid (countries : List String)
    (b : AssessmentBundle) : Prop :=
  (∃ msg, b.error = some msg ∧ b.climate_risk = unknownClimate ∧
    b.carbon_price_risk = unknownCarbon ∧
    b.technology_risk = unknownTech) ∨
  (b.error = none ∧ b.climate_risk.valid ∧ b.carbon_price_risk.valid ∧
    b.technology_risk.valid ∧ b.evaluated_countries = some countries)

theorem climateEntryOf_label (d : ClimateCountryData) :
    (climateEntryOf d).1.risk_level ∈ entryLabels := by
  cases d with
  | absent => simp [climateEntryOf, entryLabels]
  | insufficient => simp [climateEntryOf, entryLabels]
  | fitError msg => simp [climateEntryOf, entryLabels]
  | forecast h vals =>
    simp only [climateEntryOf]
    cases vals.getLast? with
    | none => simp [entryLabels]
    | some v =>
      by_cases h1 : v.le (.num (3/2)) = true
      · simp [h1, entryLabels]
      · by_cases h2 : ((PVal.num (8/5)).le v && v.le (.num (29/10))) = true
        · simp [h1, h2, entryLabels]
        · simp [h1, h2, entryLabels]

theorem climate_valid (env : ClimateEnv) (countries : List String) :
    (evaluate_climate_risk env countries).valid := by
  unfold evaluate_climate_risk
  cases hl : env.loadErr with
  | some msg => exact Or.inl ⟨msg, rfl, rfl, rfl⟩
  | none =>
    refine Or.inr ⟨rfl, ?_, ⟨_, rfl, ?_⟩⟩
    · by_cases h1 :
        (countries.foldl (climateStep env) ([], ⟨0, 0, 0⟩)).2.high > 0
      · simp [h1, riskLabels3]
      · by_cases h2 :
          (countries.foldl (climateStep env) ([], ⟨0, 0, 0⟩)).2.med >
            (countries.foldl (climateStep env) ([], ⟨0, 0, 0⟩)).2.low
        · simp [h1, h2, riskLabels3]
        · simp [h1, h2, riskLabels3]
    · exact foldl_inv (climateStep env)
        (fun st => ∀ p ∈ st.1, p.2.risk_level ∈ entryLabels)
        (fun st c hst =>
          dictSet_mem hst (climateEntryOf_label (env.data c)))
        countries ([], ⟨0, 0, 0⟩) (by intro p hp; simp at hp)

theorem sourceForecast_label (env : CarbonEnv) (c s : String) :
    (carbonSourceForecast env c s).risk_level ∈ entryLabels2 := by
  simp only [carbonSourceForecast]
  by_cases h : (ecrChange (sourceMeasures env c s)).gt0 = true
  · simp [h, entryLabels2]
  · simp [h, entryLabels2]

theorem carbonStep_labels (env : CarbonEnv) (sector : String)
    (st : List (String × CarbonCountryEntry) × ℕ) (c : String)
    (h : ∀ p ∈ st.1, p.2.riskLevel ∈ entryLabels2) :
    ∀ p ∈ (carbonCountryStep env sector st c).1,
      p.2.riskLevel ∈ entryLabels2 := by
  simp only [carbonCountryStep]
  by_cases he : (sourcesOf env sector c).isEmpty = true
  · rw [if_pos he]
    exact dictSet_mem h (by simp [CarbonCountryEntry.riskLevel, entryLabels2])
  · rw [if_neg he]
    have := foldl_inv (carbonInnerStep env c)
      (fun st => ∀ p ∈ st.1, p.2.riskLevel ∈ entryLabels2)
      (fun st' s hst' =>
        dictSet_mem hst' (sourceForecast_label env c s))
      (sourcesOf env sector c) st h
    exact this

theorem carbon_valid (env : CarbonEnv) (countries : List String)
    (sector : String) :
    (evaluate_carbon_price_risk env countries sector).valid := by
  unfold evaluate_carbon_price_risk
  cases hl : env.loadErr with
  | some msg => exact Or.inl ⟨msg, rfl, rfl, rfl⟩
  | none =>
    by_cases he : countries.all (fun c => !env.hasRows c) = true
    · rw [if_pos he]
      exact Or.inr (Or.inl ⟨rfl, ⟨_, rfl⟩, rfl, rfl⟩)
    · rw [if_neg he]
      refine Or.inr (Or.inr ⟨rfl, rfl, ?_, ⟨_, rfl, ?_⟩⟩)
      · by_cases hc :
          (((countries.foldl (carbonCountryStep env sector) ([], 0)).2 : ℚ) >
            (countries.length : ℚ) / 2)
        · simp [hc, riskLabels2]
        · simp [hc, riskLabels2]
      · exact foldl_inv (carbonCountryStep env sector)
          (fun st => ∀ p ∈ st.1, p.2.riskLevel ∈ entryLabels2)
          (fun st c hst => carbonStep_labels env sector st c hst)
          countries ([], 0) (by intro p hp; simp at hp)

theorem techEntryOf_label (d : TechCountryData) :
    (techEntryOf d).1.risk_level ∈ entryLabels2 := by
  cases d with
  | absent => simp [techEntryOf, entryLabels2]
  | insufficient => simp [techEntryOf, entryLabels2]
  | fitError msg => simp [techEntryOf, entryLabels2]
  | forecast h vals =>
    simp only [techEntryOf, techForecastEntry]
    cases (vals.reverse)[0]? with
    | none => simp [entryLabels2]
    | some a =>
      cases (vals.reverse)[2]? with
      | none => simp [entryLabels2]
      | some b =>
        by_cases hle : a.le b = true
        · simp [hle, entryLabels2]
        · simp [hle, entryLabels2]

theorem tech_valid (env : TechEnv) (countries : List String) :
    (evaluate_technology_risk env countries).valid := by
  unfold evaluate_technology_risk
  cases hl : env.loadErr with
  | some msg => exact Or.inl ⟨msg, rfl, rfl, rfl⟩
  | none =>
    refine Or.inr ⟨rfl, ?_, ⟨_, rfl, ?_⟩⟩
    · by_cases hc :
        (((countries.foldl (techStep env) ([], 0)).2 : ℚ) >
          (countries.length : ℚ) / 2)
      · simp [hc, riskLabels2]
      · simp [hc, riskLabels2]
    · exact foldl_inv (techStep env)
        (fun st => ∀ p ∈ st.1, p.2.risk_level ∈ entryLabels2)
        (fun st c hst => dictSet_mem hst (techEntryOf_label (env.data c)))
        countries ([], 0) (by intro p hp; simp at hp)

theorem bundle_valid (env : AssessEnv) (countries : List String) :
    (run_comprehensive_risk_assessment env countries).valid countries := by
  unfold run_comprehensive_risk_assessment
  by_cases he : countries.isEmpty = true
  · rw [if_pos he]
    exact Or.inl ⟨_, rfl, rfl, rfl, rfl⟩
  · rw [if_neg he]
    cases hp : env.persistErr with
    | some msg => exact Or.inl ⟨msg, rfl, rfl, rfl, rfl⟩
    | none =>
      exact Or.inr ⟨rfl, climate_valid env.climate countries,
        carbon_valid env.carbon countries "Industry",
        tech_valid env.tech countries, rfl⟩

/-- C1: each of evaluate_climate_risk, evaluate_carbon_price_risk,
evaluate_technology_risk and run_comprehensive_risk_assessment is total
over every environment (every modelled failure point, including a raised
load or persist exception and any per-entity fit failure) and returns a
structurally valid result: any internal exception becomes the outer
degraded shape with overall_risk Unknown and an error string, any
per-entity failure becomes an entry with risk_level Unknown, and every
label in the result is a legal label. -/
theorem evaluators_never_raise :
    (∀ (env : ClimateEnv) (countries : List String),
      (evaluate_climate_risk env countries).valid) ∧
    (∀ (env : CarbonEnv) (countries : List String) (sector : String),
      (evaluate_carbon_price_risk env countries sector).valid) ∧
    (∀ (env : TechEnv) (countries : List String),
      (evaluate_technology_risk env countries).valid) ∧
    (∀ (env : AssessEnv) (countries : List String),
      (run_comprehensive_risk_assessment env countries).valid countries) :=
  ⟨climate_valid, carbon_valid, tech_valid, bundle_valid⟩

/-! ## Claim C2: climate classification thresholds -/

/-- C2: climate risk classification is a pure function of the forecast
value at the final forecast period: for every country whose forecast
succeeds with final numeric value q, the stored entry has status
Forecasted and risk level Low when q ≤ 1.5, Medium when
1.6 ≤ q ≤ 2.9, and High when q > 2.9. -/
theorem climate_classification_of_final_forecast
    (env : ClimateEnv) (countries : List String) (c : String)
    (h0 : PVal) (vs : List PVal) (q : ℚ)
    (hload : env.loadErr = none) (hmem : c ∈ countries)
    (hdata : env.data c = .forecast h0 vs)
    (hlast : vs.getLast? = some (.num q)) :
    ∃ m e, (evaluate_climate_risk env countries).country_risks = some m ∧
      dictGet c m = some e ∧ e.status = "Forecasted" ∧
      (q ≤ 3/2 → e.risk_level = "Low") ∧
      (8/5 ≤ q ∧ q ≤ 29/10 → e.risk_level = "Medium") ∧
      (29/10 < q → e.risk_level = "High") := by
  have hres : (evaluate_climate_risk env countries).country_risks =
      some (countries.foldl (climateStep env) ([], ⟨0, 0, 0⟩)).1 := by
    unfold evaluate_climate_risk
    rw [hload]
  have hget := climateFold_dictGet env countries ([], ⟨0, 0, 0⟩) c
  rw [if_pos hmem] at hget
  refine ⟨_, _, hres, hget, ?_, ?_, ?_, ?_⟩
  · simp only [hdata, climateEntryOf, hlast]
    by_cases h1 : (PVal.num q).le (.num (3/2)) = true
    · simp [h1]
    · by_cases h2 :
        ((PVal.num (8/5)).le (.num q) && (PVal.num q).le (.num (29/10))) = true
      · simp [h1, h2]
      · simp [h1, h2]
  · intro hq
    have h1 : (PVal.num q).le (.num (3/2)) = true := by
      simpa [PVal.le] using hq
    simp only [hdata, climateEntryOf, hlast]
    simp [h1]
  · intro hq
    have h1 : (PVal.num q).le (.num (3/2)) = false := by
      simp only [PVal.le, decide_eq_false_iff_not]
      linarith [hq.1]
    have h2 :
        ((PVal.num (8/5)).le (.num q) && (PVal.num q).le (.num (29/10))) =
          true := by
      simp only [PVal.le, Bool.and_eq_true, decide_eq_true_eq]
      exact ⟨hq.1, hq.2⟩
    simp only [hdata, climateEntryOf, hlast]
    simp [h1, h2]
  · intro hq
    have h1 : (PVal.num q).le (.num (3/2)) = false := by
      simp only [PVal.le, decide_eq_false_iff_not]
      linarith
    have hb : (PVal.num q).le (.num (29/10)) = false := by
      simp only [PVal.le, decide_eq_false_iff_not]
      linarith
    have h2 :
        ((PVal.num (8/5)).le (.num q) && (PVal.num q).le (.num (29/10))) =
          false := by
      rw [hb, Bool.and_false]
    simp only [hdata, climateEntryOf, hlast]
    simp [h1, h2]

def c2Env : ClimateEnv :=
  ⟨none, fun c =>
    if c = "Alpha" then .forecast (.num 1) [.num 1, .num 1, .num (3/2)]
    else .absent⟩

/-- Witness for C2 at the boundary value 1.5, classified Low. -/
theorem climate_classification_of_final_forecast_witness :
    ∃ m e, (evaluate_climate_risk c2Env ["Alpha"]).country_risks = some m ∧
      dictGet "Alpha" m = some e ∧ e.status = "Forecasted" ∧
      e.risk_level = "Low" := by
  obtain ⟨m, e, h1, h2, h3, h4, _, _⟩ :=
    climate_classification_of_final_forecast c2Env ["Alpha"] "Alpha"
      (.num 1) [.num 1, .num 1, .num (3/2)] (3/2) rfl (by simp)
      (by simp [c2Env]) rfl
  exact ⟨m, e, h1, h2, h3, h4 (by norm_num)⟩

/-! ## Claim C5: climate overall aggregation -/

/-- C5: the climate overall risk is High when at least one country is
classified High, else Medium when strictly more countries are Medium
than Low, else Low; a country absent from the dataset gets the
No-data/Unknown entry and is excluded from the tally, and when no
country is classified the overall risk is Low. -/
theorem climate_overall_aggregation
    (env : ClimateEnv) (countries : List String)
    (hload : env.loadErr = none) :
    ∃ m, (evaluate_climate_risk env countries).country_risks = some m ∧
      (∀ c ∈ countries, env.data c = .absent →
        dictGet c m = some ⟨"No data available", "Unknown", none⟩) ∧
      (evaluate_climate_risk env countries).overall_risk =
        (if countLevel env countries "High" > 0 then "High"
         else if countLevel env countries "Medium" >
             countLevel env countries "Low" then "Medium"
         else "Low") ∧
      ((∀ c ∈ countries, climLabelOf (env.data c) = none) →
        (evaluate_climate_risk env countries).overall_risk = "Low") := by
  have hcnt := climateFold_counts env countries ([], ⟨0, 0, 0⟩)
  have hov : (evaluate_climate_risk env countries).overall_risk =
      (if countLevel env countries "High" > 0 then "High"
       else if countLevel env countries "Medium" >
           countLevel env countries "Low" then "Medium"
       else "Low") := by
    unfold evaluate_climate_risk
    rw [hload]
    simp only [hcnt]
    simp
  refine ⟨(countries.foldl (climateStep env) ([], ⟨0, 0, 0⟩)).1,
    ?_, ?_, hov, ?_⟩
  · unfold evaluate_climate_risk
    rw [hload]
  · intro c hc hd
    have hget := climateFold_dictGet env countries ([], ⟨0, 0, 0⟩) c
    rw [if_pos hc] at hget
    rw [hget, hd]
    rfl
  · intro hall
    have hz : ∀ lvl, countLevel env countries lvl = 0 := by
      intro lvl
      simp only [countLevel, List.length_eq_zero]
      rw [List.filter_eq_nil_iff]
      intro a ha
      simp [hall a ha]
    rw [hov, hz "High", hz "Medium", hz "Low"]
    simp

def c5Env : ClimateEnv := ⟨none, fun _ => .absent⟩

/-- Witness for C5: an unknown country yields the No-data entry and an
overall risk of Low over zero classified countries. -/
theorem climate_overall_aggregation_witness :
    ∃ m, (evaluate_climate_risk c5Env ["Atlantis"]).country_risks = some m ∧
      dictGet "Atlantis" m = some ⟨"No data available", "Unknown", none⟩ ∧
      (evaluate_climate_risk c5Env ["Atlantis"]).overall_risk = "Low" := by
  obtain ⟨m, h1, h2, h3, h4⟩ :=
    climate_overall_aggregation c5Env ["Atlantis"] rfl
  exact ⟨m, h1, h2 "Atlantis" (by simp) rfl, h4 (fun c hc => rfl)⟩

/-! ## Claim C3: ecr_change excludes SUBSID -/

/-- Example fit outcomes giving measure deltas CARBTAX +2, FUETAX +1,
MPERPRI 0, SUBSID -5. -/
def c3Fit (m : String) : CarbonFitOutcome :=
  if m = "CARBTAX" then .ok (some (.num 0)) [.num 2]
  else if m = "FUETAX" then .ok (some (.num 0)) [.num 1]
  else if m = "MPERPRI" then .ok (some (.num 0)) [.num 0]
  else .ok (some (.num 0)) [.num (-5)]

def c3Env : CarbonEnv :=
  ⟨none, fun _ => true, true, fun _ _ => ["S"], fun _ => ["S"],
   fun _ => true, fun _ _ m => c3Fit m⟩

/-- C3: for every (country, source) group, ecr_change is the sum of the
change deltas of exactly CARBTAX, FUETAX and MPERPRI (the formula does
not consult SUBSID), and the group is labeled High when ecr_change > 0
and Low otherwise; with the concrete deltas CARBTAX +2, FUETAX +1,
MPERPRI 0 and SUBSID -5 the result is ecr_change 3 and label High. -/
theorem carbon_ecr_excludes_subsid :
    (∀ (env : CarbonEnv) (c s : String),
      (carbonSourceForecast env c s).ecr_change =
        (((PVal.num 0).add (measureChange env c s "CARBTAX")).add
          (measureChange env c s "FUETAX")).add
          (measureChange env c s "MPERPRI") ∧
      (carbonSourceForecast env c s).risk_level =
        (if (carbonSourceForecast env c s).ecr_change.gt0 then "High"
         else "Low")) ∧
    ((carbonSourceForecast c3Env "C" "S").ecr_change = .num 3 ∧
     (carbonSourceForecast c3Env "C" "S").risk_level = "High" ∧
     dictGet "SUBSID" (carbonSourceForecast c3Env "C" "S").measures =
       some (.fitted (.num 0) (.num (-5)) (.num (-5)))) := by
  constructor
  · intro env c s
    exact ⟨ecrChange_eq env c s, rfl⟩
  · have h1 : ecrChange (sourceMeasures c3Env "C" "S") = .num 3 := by
      rw [ecrChange_eq]
      simp [measureChange, c3Env, c3Fit, processMeasure,
        MeasureEntry.getChange, PVal.add, PVal.sub, PVal.isNaN]
      norm_num
    refine ⟨h1, ?_, ?_⟩
    · show (if (ecrChange (sourceMeasures c3Env "C" "S")).gt0 then "High"
        else "Low") = "High"
      rw [h1]
      norm_num [PVal.gt0]
    · show dictGet "SUBSID" (sourceMeasures c3Env "C" "S") =
        some (.fitted (.num 0) (.num (-5)) (.num (-5)))
      simp [sourceMeasures, measureNames, dictGet, c3Env, c3Fit,
        processMeasure, PVal.sub, PVal.isNaN]

/-! ## Claim C10: fit failures contribute zero -/

def c10Env : CarbonEnv :=
  ⟨none, fun _ => true, true, fun _ _ => ["S"], fun _ => ["S"],
   fun _ => true, fun _ _ _ => .err "boom"⟩

/-- C10: a measure whose fit raises is recorded as the error entry,
which carries no change value so its .get(change, 0) read is 0, and a
(country, source) group in which every measure fit fails has
ecr_change 0 and is labeled Low, never Unknown. -/
theorem carbon_fit_failure_zero :
    (∀ (env : CarbonEnv) (c s m msg : String), m ∈ measureNames →
      env.hasMeasure m = true → env.fit c s m = .err msg →
      dictGet m (sourceMeasures env c s) = some (.fitFailed msg) ∧
      (MeasureEntry.fitFailed msg).getChange = .num 0) ∧
    (∀ (env : CarbonEnv) (c s : String),
      (∀ m, ∃ msg, env.fit c s m = .err msg) →
      (carbonSourceForecast env c s).ecr_change = .num 0 ∧
      (carbonSourceForecast env c s).risk_level = "Low") := by
  constructor
  · intro env c s m msg hm hhas hfit
    constructor
    · rw [dictGet_sourceMeasures env c s m hm, if_pos hhas, hfit]
      rfl
    · rfl
  · intro env c s hall
    have hch : ∀ m, measureChange env c s m = .num 0 := by
      intro m
      obtain ⟨msg, hmsg⟩ := hall m
      simp [measureChange, hmsg, processMeasure, MeasureEntry.getChange]
    have he : (carbonSourceForecast env c s).ecr_change = .num 0 := by
      show ecrChange (sourceMeasures env c s) = .num 0
      rw [ecrChange_eq, hch, hch, hch]
      simp [PVal.add]
    refine ⟨he, ?_⟩
    have he2 : ecrChange (sourceMeasures env c s) = .num 0 := he
    show (if (ecrChange (sourceMeasures env c s)).gt0 then "High"
      else "Low") = "Low"
    rw [he2]
    simp [PVal.gt0]

/-- Witness for C10: an environment in which every fit raises. -/
theorem carbon_fit_failure_zero_witness :
    dictGet "CARBTAX" (sourceMeasures c10Env "C" "S") =
      some (.fitFailed "boom") ∧
    (carbonSourceForecast c10Env "C" "S").ecr_change = .num 0 ∧
    (carbonSourceForecast c10Env "C" "S").risk_level = "Low" := by
  refine ⟨(carbon_fit_failure_zero.1 c10Env "C" "S" "CARBTAX" "boom"
    (by simp [measureNames]) rfl rfl).1, ?_, ?_⟩
  · exact (carbon_fit_failure_zero.2 c10Env "C" "S"
      (fun m => ⟨"boom", rfl⟩)).1
  · exact (carbon_fit_failure_zero.2 c10Env "C" "S"
      (fun m => ⟨"boom", rfl⟩)).2

/-! ## Claim C6: High-count majority aggregation -/

/-- One country with two sources, every measure delta +1, so both
sources are High: the pair count is 2 for a single country. -/
def c6Env : CarbonEnv :=
  ⟨none, fun _ => true, true, fun _ _ => ["S1", "S2"], fun _ => [],
   fun _ => true, fun _ _ _ => .ok (some (.num 0)) [.num 1]⟩

def c6TechEnv : TechEnv :=
  ⟨none, fun _ => .forecast (.num 1) [.num 2, .num 1, .num 1, .num 1]⟩

/-- C6: both evaluate_carbon_price_risk (whose high_risk_count counts
(country, source) pairs, and can exceed the number of countries) and
evaluate_technology_risk (whose count is over countries) return overall
High exactly when the count strictly exceeds half the number of
requested countries, and Low otherwise; c6Env shows a pair count of 2
for a single country. -/
theorem overall_high_count_majority :
    (∀ (env : CarbonEnv) (countries : List String) (sector : String),
      env.loadErr = none → countries.any env.hasRows = true →
      (evaluate_carbon_price_risk env countries sector).overall_risk =
        (if ((carbonHighCount env sector countries : ℚ) >
            (countries.length : ℚ) / 2) then "High" else "Low")) ∧
    (∀ (env : TechEnv) (countries : List String),
      env.loadErr = none →
      (evaluate_technology_risk env countries).overall_risk =
        (if ((techHighCount env countries : ℚ) >
            (countries.length : ℚ) / 2) then "High" else "Low")) ∧
    (carbonHighCount c6Env "Industry" ["C"] = 2 ∧
     (["C"] : List String).length = 1) := by
  refine ⟨?_, ?_, ?_, rfl⟩
  · intro env countries sector hload hany
    have hne : (countries.all (fun c => !env.hasRows c)) = false := by
      rcases List.any_eq_true.mp hany with ⟨x, hx, hpx⟩
      apply Bool.eq_false_iff.mpr
      intro hallq
      have := List.all_eq_true.mp hallq x hx
      simp [hpx] at this
    unfold evaluate_carbon_price_risk
    rw [hload]
    simp only [hne, Bool.false_eq_true, if_false,
      carbonFold_count env sector countries ([], 0), Nat.zero_add]
  · intro env countries hload
    unfold evaluate_technology_risk
    rw [hload]
    simp only [techFold_count env countries ([], 0), Nat.zero_add]
  · norm_num [carbonHighCount, sourcesOf, sourceHigh, c6Env, ecrChange,
      ecrMeasures, sourceMeasures, measureNames, dictGet, processMeasure,
      MeasureEntry.getChange, PVal.add, PVal.sub, PVal.gt0, PVal.isNaN,
      carbonSourceForecast, List.filter]

/-- Witness for C6 at concrete environments. -/
theorem overall_high_count_majority_witness :
    (evaluate_carbon_price_risk c6Env ["C"] "Industry").overall_risk =
      "High" ∧
    (evaluate_technology_risk c6TechEnv ["T"]).overall_risk = "High" := by
  constructor
  · rw [overall_high_count_majority.1 c6Env ["C"] "Industry" rfl rfl]
    rw [overall_high_count_majority.2.2.1]
    norm_num
  · rw [overall_high_count_majority.2.1 c6TechEnv ["T"] rfl]
    norm_num [techHighCount, techLabelOf, c6TechEnv, techForecastLabel,
      PVal.le, List.filter]

/-! ## Claim C7: empty-list short circuit -/

/-- C7: run_comprehensive_risk_assessment on the empty country list
returns, for every environment, the one fixed bundle (so no evaluator or
forecast is consulted), whose three domain results are the Unknown stubs
and whose error field is populated. -/
theorem comprehensive_empty_short_circuit :
    (∀ env : AssessEnv,
      run_comprehensive_risk_assessment env [] = emptyCountriesBundle) ∧
    emptyCountriesBundle.climate_risk = ⟨"Unknown", none, none⟩ ∧
    emptyCountriesBundle.carbon_price_risk = ⟨"Unknown", none, none, none⟩ ∧
    emptyCountriesBundle.technology_risk = ⟨"Unknown", none, none⟩ ∧
    emptyCountriesBundle.error =
      some "No countries specified for risk assessment" ∧
    emptyCountriesBundle.timestamp = none :=
  ⟨fun _ => rfl, rfl, rfl, rfl, rfl, rfl⟩

/-! ## Claim C4: technology trend comparison -/

def c4Env : TechEnv :=
  ⟨none, fun c =>
    if c = "Alpha" then .forecast (.num 1) [.num 1, .num 1, .num 1, .num 1]
    else .absent⟩

/-- C4 counterexample: with forecast [1, 1, 1, 1] the final forecast
value equals the value three positions from the end, yet the label is
High, not Low: the source selects High on final <= earlier, so the
equality case is High. -/
theorem technology_equality_high_counterexample :
    (([PVal.num 1, .num 1, .num 1, .num 1].reverse)[0]? =
      ([PVal.num 1, .num 1, .num 1, .num 1].reverse)[2]?) ∧
    (evaluate_technology_risk c4Env ["Alpha"]).country_details =
      some [("Alpha",
        ⟨"Forecasted", "High", some "Decreasing", some (.num 1),
         some (.num 1)⟩)] := by
  constructor
  · rfl
  · simp [evaluate_technology_risk, c4Env, techStep, techEntryOf,
      techForecastEntry, dictSet, PVal.le]

/-- C4 amended: with forecast array ending [..., a, b, c], the
technology label is Low precisely when c is strictly greater than a;
when c <= a, including the equality case c = a, the label is High. -/
theorem technology_growth_label
    (env : TechEnv) (countries : List String) (c : String)
    (h0 : PVal) (vs : List PVal) (qc qa : ℚ)
    (hload : env.loadErr = none) (hmem : c ∈ countries)
    (hdata : env.data c = .forecast h0 vs)
    (hlast : (vs.reverse)[0]? = some (.num qc))
    (hthird : (vs.reverse)[2]? = some (.num qa)) :
    ∃ m e,
      (evaluate_technology_risk env countries).country_details = some m ∧
      dictGet c m = some e ∧
      (e.risk_level = "Low" ↔ qa < qc) ∧
      (qc ≤ qa → e.risk_level = "High") := by
  have hres : (evaluate_technology_risk env countries).country_details =
      some (countries.foldl (techStep env) ([], 0)).1 := by
    unfold evaluate_technology_risk
    rw [hload]
  have hget := techFold_dictGet env countries ([], 0) c
  rw [if_pos hmem] at hget
  refine ⟨_, _, hres, hget, ?_, ?_⟩
  · simp only [hdata, techEntryOf, techForecastEntry, hlast, hthird]
    by_cases hle : (PVal.num qc).le (.num qa) = true
    · have hq : qc ≤ qa := by simpa [PVal.le] using hle
      simp only [hle, if_true]
      constructor
      · intro h
        exact absurd h (by simp)
      · intro h
        exact absurd h (by linarith)
    · have hq : qa < qc := by
        simp only [PVal.le, decide_eq_true_eq] at hle
        exact lt_of_not_le hle
      simp only [hle, Bool.false_eq_true, if_false]
      simp [hq]
  · intro hq
    have hle : (PVal.num qc).le (.num qa) = true := by
      simpa [PVal.le] using hq
    simp only [hdata, techEntryOf, techForecastEntry, hlast, hthird, hle,
      if_true]

def c4bEnv : TechEnv :=
  ⟨none, fun _ => .forecast (.num 1) [.num 1, .num 1, .num 1, .num 2]⟩

/-- Witness for the amended C4: a strictly growing tail is labeled
Low. -/
theorem technology_growth_label_witness :
    ∃ m e,
      (evaluate_technology_risk c4bEnv ["Alpha"]).country_details = some m ∧
      dictGet "Alpha" m = some e ∧ e.risk_level = "Low" := by
  obtain ⟨m, e, h1, h2, h3, _⟩ :=
    technology_growth_label c4bEnv ["Alpha"] "Alpha" (.num 1)
      [.num 1, .num 1, .num 1, .num 2] 2 1 rfl (by simp) rfl rfl rfl
  exact ⟨m, e, h1, h2, h3.mpr (by norm_num)⟩

/-! ## Claim C8: empty filtered dataset handling -/

/-- A country that has carbon rows, but no sources survive the sector
filter. -/
def c8Env : CarbonEnv :=
  ⟨none, fun _ => true, true, fun _ _ => [], fun _ => ["S"],
   fun _ => true, fun _ _ _ => .err "x"⟩

/-- C8 counterexample: rows exist for the requested country but none
for the requested sector, and the evaluator returns overall Low with a
per-country No-data entry, not a top-level Unknown: the emptiness check
runs before the sector filter. -/
theorem carbon_sector_empty_low_counterexample :
    c8Env.hasRows "Alpha" = true ∧
    sourcesOf c8Env "Industry" "Alpha" = [] ∧
    evaluate_carbon_price_risk c8Env ["Alpha"] "Industry" =
      ⟨"Low", some [("Alpha", .noData "No data available" "Unknown")],
       none, none⟩ ∧
    "Low" ≠ "Unknown" := by
  refine ⟨rfl, rfl, ?_, by simp⟩
  unfold evaluate_carbon_price_risk
  norm_num [c8Env, carbonCountryStep, sourcesOf, dictSet]

/-- C8 amended: the top-level Unknown-with-message result is returned
exactly when the country filter alone (checked before the sector
filter) is empty; when countries have rows but the sector filter leaves
no sources for any of them, each country gets the per-country
No-data/Unknown entry and the overall risk is Low. -/
theorem carbon_empty_filter_behaviour :
    (∀ (env : CarbonEnv) (countries : List String) (sector : String),
      env.loadErr = none →
      countries.all (fun c => !env.hasRows c) = true →
      evaluate_carbon_price_risk env countries sector =
        ⟨"Unknown", none,
         some "No carbon pricing data available for specified countries",
         none⟩) ∧
    (∀ (env : CarbonEnv) (countries : List String) (sector : String),
      env.loadErr = none → countries.any env.hasRows = true →
      (∀ c ∈ countries, sourcesOf env sector c = []) →
      (evaluate_carbon_price_risk env countries sector).overall_risk =
        "Low" ∧
      ∃ m,
        (evaluate_carbon_price_risk env countries sector).country_details =
          some m ∧
        ∀ c ∈ countries,
          dictGet c m = some (.noData "No data available" "Unknown")) := by
  constructor
  · intro env countries sector hload hall
    unfold evaluate_carbon_price_risk
    rw [hload]
    simp only [hall, if_true]
  · intro env countries sector hload hany hsrc
    have hne : (countries.all (fun c => !env.hasRows c)) = false := by
      rcases List.any_eq_true.mp hany with ⟨x, hx, hpx⟩
      apply Bool.eq_false_iff.mpr
      intro hallq
      have := List.all_eq_true.mp hallq x hx
      simp [hpx] at this
    have hzero : carbonHighCount env sector countries = 0 := by
      apply List.sum_eq_zero
      intro x hx
      rcases List.mem_map.mp hx with ⟨c, hc, rfl⟩
      rw [hsrc c hc]
      rfl
    have hres : evaluate_carbon_price_risk env countries sector =
        ⟨"Low",
         some (countries.foldl (carbonCountryStep env sector) ([], 0)).1,
         none, none⟩ := by
      unfold evaluate_carbon_price_risk
      rw [hload]
      simp only [hne, Bool.false_eq_true, if_false,
        carbonFold_count env sector countries ([], 0), Nat.zero_add, hzero]
      have hhalf : ¬ (((0 : ℕ) : ℚ) > (countries.length : ℚ) / 2) := by
        have h1 : (0 : ℚ) ≤ (countries.length : ℚ) / 2 := by positivity
        push_neg
        simpa using h1
      rw [if_neg hhalf]
    refine ⟨by rw [hres], _, by rw [hres], ?_⟩
    intro c hc
    have hget := carbonFold_dictGet env sector countries ([], 0) c
    rw [if_pos hc] at hget
    rw [hget]
    simp [carbonCountryEntryOf, hsrc c hc]

/-- Every country lacks carbon rows altogether. -/
def c8bEnv : CarbonEnv :=
  ⟨none, fun _ => false, true, fun _ _ => ["S"], fun _ => ["S"],
   fun _ => true, fun _ _ _ => .err "x"⟩

/-- Witness for the amended C8 at concrete environments. -/
theorem carbon_empty_filter_behaviour_witness :
    evaluate_carbon_price_risk c8bEnv ["Alpha"] "Industry" =
      ⟨"Unknown", none,
       some "No carbon pricing data available for specified countries",
       none⟩ ∧
    (evaluate_carbon_price_risk c8Env ["Alpha"] "Industry").overall_risk =
      "Low" := by
  constructor
  · exact carbon_empty_filter_behaviour.1 c8bEnv ["Alpha"] "Industry" rfl rfl
  · exact (carbon_empty_filter_behaviour.2 c8Env ["Alpha"] "Industry" rfl
      rfl (fun c hc => rfl)).1

/-! ## Claim C9: the all-NaN forecast fallback -/

theorem map_fillna_replicate (q : ℚ) :
    ∀ l : List PVal, l.all PVal.isNaN = true →
      l.map (PVal.fillna (.num q)) = List.replicate l.length (.num q) := by
  intro l
  induction l with
  | nil => intro h; rfl
  | cons x xs ih =>
    intro h
    rw [List.all_cons, Bool.and_eq_true] at h
    have hx : x = .nan := by
      cases x
      · rfl
      · exact absurd h.1 (by simp [PVal.isNaN])
    subst hx
    rw [List.map_cons, List.length_cons, List.replicate_succ, ih h.2]
    rfl

theorem all_nan_getLast (l : List PVal) (hne : l ≠ [])
    (hnan : l.all PVal.isNaN = true) : l.getLast? = some PVal.nan := by
  obtain ⟨x, hx⟩ :=
    Option.isSome_iff_exists.mp (List.getLast?_isSome.mpr hne)
  have hxmem := List.mem_of_getLast?_eq_some hx
  have hxnan : x = PVal.nan := by
    have := List.all_eq_true.mp hnan x hxmem
    cases x
    · rfl
    · simp [PVal.isNaN] at this
  rw [hx, hxnan]

theorem processMeasure_all_nan (q : ℚ) (pred : List PVal)
    (hne : pred ≠ []) (hnan : pred.all PVal.isNaN = true) :
    processMeasure (.ok (some (.num q)) pred) =
      .fitted (.num q) (.num q) (.num 0) := by
  have hplast : (pred.map (PVal.fillna (.num q))).getLast? =
      some (.num q) := by
    rw [List.getLast?_map, all_nan_getLast pred hne hnan]
    rfl
  simp only [processMeasure, hnan, if_true, Option.getD_some, hplast]
  simp [PVal.sub]

def c9ClimateEnv : ClimateEnv :=
  ⟨none, fun c =>
    if c = "Alpha" then .forecast (.num 1) [.nan, .nan, .nan]
    else .absent⟩

/-- C9 counterexample: the climate evaluator applies no all-NaN
fallback: with last observed value 1 and an all-NaN forecast, the
stored final forecast is NaN (not the last value 1) and the
classification, which the NaN reaches, yields High — whereas the
claimed fallback value 1 classifies as Low. -/
theorem climate_no_nan_fallback_counterexample :
    (evaluate_climate_risk c9ClimateEnv ["Alpha"]).country_risks =
      some [("Alpha", ⟨"Forecasted", "High", some PVal.nan⟩)] ∧
    climateLabel (.num 1) = "Low" := by
  constructor
  · simp [evaluate_climate_risk, c9ClimateEnv, climateStep, climateEntryOf,
      dictSet, PVal.le]
  · norm_num [climateLabel, PVal.le]

/-- C9 amended: the all-NaN fallback exists only in the carbon measure
loop, where an entirely NaN forecast is replaced by the last historical
value repeated for every period (so that measure contributes change 0);
the climate and technology evaluators use the raw model forecast, so an
all-NaN forecast reaches their classifications, yielding High for
climate and Low for technology. -/
theorem nan_fallback_carbon_only :
    (∀ (q : ℚ) (pred : List PVal), pred ≠ [] →
      pred.all PVal.isNaN = true →
      pred.map (PVal.fillna (.num q)) =
        List.replicate pred.length (.num q) ∧
      processMeasure (.ok (some (.num q)) pred) =
        .fitted (.num q) (.num q) (.num 0)) ∧
    (∀ (env : ClimateEnv) (countries : List String) (c : String)
      (h0 : PVal) (vs : List PVal),
      env.loadErr = none → c ∈ countries →
      env.data c = .forecast h0 vs → vs ≠ [] →
      vs.all PVal.isNaN = true →
      ∃ m e,
        (evaluate_climate_risk env countries).country_risks = some m ∧
        dictGet c m = some e ∧ e.risk_level = "High" ∧
        e.forecast_temp_rise = some PVal.nan) ∧
    (∀ (env : TechEnv) (countries : List String) (c : String)
      (h0 : PVal) (vs : List PVal),
      env.loadErr = none → c ∈ countries →
      env.data c = .forecast h0 vs → 3 ≤ vs.length →
      vs.all PVal.isNaN = true →
      ∃ m e,
        (evaluate_technology_risk env countries).country_details = some m ∧
        dictGet c m = some e ∧ e.risk_level = "Low" ∧
        e.forecast_value = some PVal.nan) := by
  refine ⟨?_, ?_, ?_⟩
  · intro q pred hne hnan
    exact ⟨map_fillna_replicate q pred hnan,
      processMeasure_all_nan q pred hne hnan⟩
  · intro env countries c h0 vs hload hmem hdata hne hnan
    have hres : (evaluate_climate_risk env countries).country_risks =
        some (countries.foldl (climateStep env) ([], ⟨0, 0, 0⟩)).1 := by
      unfold evaluate_climate_risk
      rw [hload]
    have hget := climateFold_dictGet env countries ([], ⟨0, 0, 0⟩) c
    rw [if_pos hmem] at hget
    refine ⟨_, _, hres, hget, ?_, ?_⟩
    · simp only [hdata, climateEntryOf, all_nan_getLast vs hne hnan]
      simp [PVal.le]
    · simp only [hdata, climateEntryOf, all_nan_getLast vs hne hnan]
      simp [PVal.le]
  · intro env countries c h0 vs hload hmem hdata hlen hnan
    have hrevlen : vs.reverse.length = vs.length := List.length_reverse vs
    have h0lt : 0 < vs.reverse.length := by omega
    have h2lt : 2 < vs.reverse.length := by omega
    have e0 : vs.reverse[0]? = some vs.reverse[0] :=
      List.getElem?_eq_getElem h0lt
    have e2 : vs.reverse[2]? = some vs.reverse[2] :=
      List.getElem?_eq_getElem h2lt
    have n0 : vs.reverse[0] = PVal.nan := by
      have hm := List.mem_reverse.mp (List.getElem_mem h0lt)
      have := List.all_eq_true.mp hnan _ hm
      cases hv : vs.reverse[0]
      · rfl
      · rw [hv] at this
        simp [PVal.isNaN] at this
    have n2 : vs.reverse[2] = PVal.nan := by
      have hm := List.mem_reverse.mp (List.getElem_mem h2lt)
      have := List.all_eq_true.mp hnan _ hm
      cases hv : vs.reverse[2]
      · rfl
      · rw [hv] at this
        simp [PVal.isNaN] at this
    have hres : (evaluate_technology_risk env countries).country_details =
        some (countries.foldl (techStep env) ([], 0)).1 := by
      unfold evaluate_technology_risk
      rw [hload]
    have hget := techFold_dictGet env countries ([], 0) c
    rw [if_pos hmem] at hget
    refine ⟨_, _, hres, hget, ?_, ?_⟩
    · simp only [hdata, techEntryOf, techForecastEntry, e0, e2, n0, n2]
      simp [PVal.le]
    · simp only [hdata, techEntryOf, techForecastEntry, e0, e2, n0, n2]
      simp [PVal.le]

def c9TechEnv : TechEnv :=
  ⟨none, fun _ => .forecast (.num 1) [.nan, .nan, .nan, .nan]⟩

/-- Witness for the amended C9 at concrete inputs: the carbon fallback
yields change 0, the climate evaluator labels an all-NaN forecast High
and stores the NaN, the technology evaluator labels it Low. -/
theorem nan_fallback_carbon_only_witness :
    processMeasure (.ok (some (.num 1)) [PVal.nan, .nan, .nan, .nan]) =
      .fitted (.num 1) (.num 1) (.num 0) ∧
    (∃ m e,
      (evaluate_climate_risk c9ClimateEnv ["Alpha"]).country_risks =
        some m ∧
      dictGet "Alpha" m = some e ∧ e.risk_level = "High" ∧
      e.forecast_temp_rise = some PVal.nan) ∧
    (∃ m e,
      (evaluate_technology_risk c9TechEnv ["Alpha"]).country_details =
        some m ∧
      dictGet "Alpha" m = some e ∧ e.risk_level = "Low" ∧
      e.forecast_value = some PVal.nan) := by
  refine ⟨(nan_fallback_carbon_only.1 1 [PVal.nan, .nan, .nan, .nan]
      (by simp) rfl).2, ?_, ?_⟩
  · exact nan_fallback_carbon_only.2.1 c9ClimateEnv ["Alpha"] "Alpha"
      (.num 1) [.nan, .nan, .nan] rfl (by simp) (by simp [c9ClimateEnv])
      (by simp) rfl
  · exact nan_fallback_carbon_only.2.2 c9TechEnv ["Alpha"] "Alpha"
      (.num 1) [.nan, .nan, .nan, .nan] rfl (by simp) rfl (by simp) rfl

end RiskEval
